import Mathlib

/-!
Shallow embedding of the concentrated-liquidity repositioning planner
(`CrocReposition` and its helpers) together with proofs of the specified
properties.  JavaScript floating-point numbers are modelled as rationals,
`BigNumber` values as integers, and the `async`/`throw` behaviour of the
planner as computations in `Except RepoError`.
-/

/-- The single fatal error of the planner: the position whose rebalance is
being planned is still inside its burn range
(`throw new Error('Rebalance position not out of range')`). -/
inductive RepoError where
  | positionNotOutOfRange
deriving DecidableEq

/-- The mint target of a reposition: either the full-range ambient sentinel
(`'ambient'`) or a concrete tick range (`TickRange`, i.e. `[number, number]`). -/
inductive MintTarget where
  | ambient : MintTarget
  | range (lo hi : ℤ) : MintTarget
deriving DecidableEq

/-- Modelled from the spec: `tickToPrice` (imported from `../utils`, not part
of the sources) maps a discretized integer tick to a positive price via a
fixed logarithmic scale; it is strictly increasing in the tick.  We use the
rational base `10001/10000`. -/
def tickToPrice (t : ℤ) : ℚ :=
  (10001 / 10000 : ℚ) ^ t

/-- Modelled from the spec: `concDepositBalance` (from `../utils/liquidity`,
not part of the sources) returns the fraction in `[0,1]` of position value
held as the base asset for a concentrated position spanning
`[lower, upper]` at price `spot`; exactly `1` when the market is at or below
the range, exactly `0` when at or above it, interpolating inside. -/
def concDepositBalance (spot lower upper : ℚ) : ℚ :=
  if spot ≤ lower then 1
  else if upper ≤ spot then 0
  else (upper - spot) / (upper - lower)

/-- Modelled from the spec: `baseTokenForConcLiq` (from `../utils/liquidity`,
not part of the sources) is the absolute base-asset quantity, as an integer in
the asset's smallest unit, that a liquidity magnitude converts to at the given
price and range. -/
def baseTokenForConcLiq (price : ℚ) (liq : ℤ) (lower upper : ℚ) : ℤ :=
  ⌊(liq : ℚ) * ((min (max price lower) upper - lower) / (upper - lower))⌋

/-- Modelled from the spec: `quoteTokenForConcLiq` (from `../utils/liquidity`,
not part of the sources), symmetric counterpart of `baseTokenForConcLiq`. -/
def quoteTokenForConcLiq (price : ℚ) (liq : ℤ) (lower upper : ℚ) : ℤ :=
  ⌊(liq : ℚ) * ((upper - min (max price lower) upper) / (upper - lower))⌋

/-- Modelled from the spec: `encodeCrocPrice` (from `../utils`, not part of
the sources) encodes a price into the pool's native fixed-point
representation. -/
def encodeCrocPrice (p : ℚ) : ℤ :=
  ⌊p * 2 ^ 64⌋

/-- `const DEFAULT_REBAL_SLIPPAGE = 0.02`. -/
def DEFAULT_REBAL_SLIPPAGE : ℚ := 1 / 50

/-- The slice of `CrocPoolView` the planner reads at construction: the spot
price / spot tick snapshot, the two token descriptors (addresses and display
decimals) and the chain's pool index. -/
structure CrocPoolView where
  baseToken : ℕ
  quoteToken : ℕ
  baseDecimals : ℕ
  quoteDecimals : ℕ
  poolIndex : ℕ
  spotPrice : ℚ
  spotTick : ℤ
deriving DecidableEq

/-- `RepositionTarget`: burn range, mint target and liquidity magnitude. -/
structure RepositionTarget where
  mint : MintTarget
  burn : ℤ × ℤ
  liquidity : ℤ
deriving DecidableEq

/-- The state of a `CrocReposition` instance after its constructor ran:
the burn range, mint target, liquidity, the memoized spot price / spot tick
snapshot, the impact tolerance, and the pool data the directive needs. -/
structure CrocReposition where
  baseToken : ℕ
  quoteToken : ℕ
  baseDecimals : ℕ
  quoteDecimals : ℕ
  poolIndex : ℕ
  burnRange : ℤ × ℤ
  mintRange : MintTarget
  liquidity : ℤ
  spotPrice : ℚ
  spotTick : ℤ
  impact : ℚ
deriving DecidableEq

/-- JavaScript `opts?.impact || DEFAULT_REBAL_SLIPPAGE`: `0` is falsy, so a
zero impact option falls back to the default exactly as a missing one does. -/
def jsImpactOr (x : Option ℚ) : ℚ :=
  match x with
  | some v => if v = 0 then DEFAULT_REBAL_SLIPPAGE else v
  | none => DEFAULT_REBAL_SLIPPAGE

/-- The `CrocReposition` constructor: copies the target, snapshots the pool's
spot price and tick, and resolves the impact option. -/
def mkCrocReposition (pool : CrocPoolView) (target : RepositionTarget)
    (optsImpact : Option ℚ) : CrocReposition :=
  { baseToken := pool.baseToken
    quoteToken := pool.quoteToken
    baseDecimals := pool.baseDecimals
    quoteDecimals := pool.quoteDecimals
    poolIndex := pool.poolIndex
    burnRange := target.burn
    mintRange := target.mint
    liquidity := target.liquidity
    spotPrice := pool.spotPrice
    spotTick := pool.spotTick
    impact := jsImpactOr optsImpact }

/-- Ethers `BigNumber.div`: integer division truncating toward zero. -/
def bnDiv (a b : ℤ) : ℤ := Int.tdiv a b

/-- Integer smallest-unit amount to display-precision decimal
(`CrocTokenView.toDisplay`). -/
def tokenToDisplay (decimals : ℕ) (z : ℤ) : ℚ :=
  (z : ℚ) / 10 ^ decimals

namespace CrocReposition

/-- `isBaseOutOfRange`: compares the spot tick to the burn range; `true` when
the spot tick is at or above the upper tick, `false` when strictly below the
lower tick, and the not-out-of-range error otherwise. -/
def isBaseOutOfRange (p : CrocReposition) : Except RepoError Bool :=
  if p.burnRange.2 ≤ p.spotTick then .ok true
  else if p.spotTick < p.burnRange.1 then .ok false
  else .error .positionNotOutOfRange

/-- `balancePercent`: `0.5` for an ambient mint target, otherwise the
concentrated-deposit balance of the mint range at the spot price, inverted
when the base side is out of range. -/
def balancePercent (p : CrocReposition) : Except RepoError ℚ :=
  match p.mintRange with
  | .ambient => .ok (1 / 2)
  | .range lo hi => do
      let baseQuoteBal := concDepositBalance p.spotPrice (tickToPrice lo) (tickToPrice hi)
      let isBase ← p.isBaseOutOfRange
      .ok (if isBase then 1 - baseQuoteBal else baseQuoteBal)

/-- `currentCollateral`: the freed collateral of the burn range, in the base
asset when the base side is out of range and in the quote asset otherwise. -/
def currentCollateral (p : CrocReposition) : Except RepoError ℤ := do
  let isBase ← p.isBaseOutOfRange
  if isBase then
    .ok (baseTokenForConcLiq p.spotPrice p.liquidity
      (tickToPrice p.burnRange.1) (tickToPrice p.burnRange.2))
  else
    .ok (quoteTokenForConcLiq p.spotPrice p.liquidity
      (tickToPrice p.burnRange.1) (tickToPrice p.burnRange.2))

/-- `swapFraction`: `min(balancePercent() + impact, 1.0)` scaled by 10000 and
floored to an integer (`BigNumber.from(Math.floor(Math.min(swapProp, 1.0) * 10000))`). -/
def swapFraction (p : CrocReposition) : Except RepoError ℤ := do
  let bp ← p.balancePercent
  .ok ⌊min (bp + p.impact) 1 * 10000⌋

/-- `convertCollateral`: `currentCollateral * swapFraction / 10000` with
`BigNumber` integer division (the code awaits `swapFraction` first). -/
def convertCollateral (p : CrocReposition) : Except RepoError ℤ := do
  let balance ← p.swapFraction
  let collat ← p.currentCollateral
  .ok (bnDiv (collat * balance) 10000)

/-- The integer remainder `currentCollateral - convertCollateral` that
`mintInput` computes before converting it to a display string. -/
def mintInputRaw (p : CrocReposition) : Except RepoError ℤ := do
  let collat ← p.currentCollateral
  let conv ← p.convertCollateral
  .ok (collat - conv)

/-- `mintInput`: the un-swapped remainder converted to a display-precision
amount of whichever token stayed unswapped. -/
def mintInput (p : CrocReposition) : Except RepoError ℚ := do
  let collat ← p.mintInputRaw
  let isBase ← p.isBaseOutOfRange
  if isBase then
    .ok (tokenToDisplay p.baseDecimals collat)
  else
    .ok (tokenToDisplay p.quoteDecimals collat)

/-- `pivotTokens`: sell the base token and buy the quote token when the base
side is out of range, and the reverse otherwise. -/
def pivotTokens (p : CrocReposition) : Except RepoError (ℕ × ℕ) := do
  let isBase ← p.isBaseOutOfRange
  if isBase then
    .ok (p.baseToken, p.quoteToken)
  else
    .ok (p.quoteToken, p.baseToken)

/-- `swapOutput`: runs the external swap-impact calculator (passed here as the
function `calcImpact`) on `convertCollateral` after resolving the pivot
tokens. -/
def swapOutput (calcImpact : ℤ → ℚ) (p : CrocReposition) : Except RepoError ℚ := do
  let _ ← p.pivotTokens
  let conv ← p.convertCollateral
  .ok (calcImpact conv)

/-- `postBalance`: pairs the un-swapped remainder with the projected swap
output, base first when the base side is out of range. -/
def postBalance (calcImpact : ℤ → ℚ) (p : CrocReposition) :
    Except RepoError (ℚ × ℚ) := do
  let outside ← p.mintInput
  let inside ← swapOutput calcImpact p
  let isBase ← p.isBaseOutOfRange
  if isBase then
    .ok (outside, inside)
  else
    .ok (inside, outside)

end CrocReposition

/-- Modelled from the spec: the swap sub-directive of a pool leg as
`setupSwap` populates it (direction flags, rolled quantity, roll type and
encoded limit price).  The `longform` encoding module is not part of the
sources. -/
structure SwapDirective where
  isBuy : Bool
  inBaseQty : Bool
  qty : ℤ
  rollType : ℕ
  limitPrice : ℤ
deriving DecidableEq

/-- Modelled from the spec: a passive sub-directive attached to a pool leg —
a range burn, a range mint or an ambient mint (the latter two carrying their
roll-type flag). -/
inductive PassiveDirective where
  | rangeBurn (lo hi : ℤ) (liq : ℤ) : PassiveDirective
  | rangeMint (lo hi : ℤ) (liq : ℤ) (rollType : ℕ) : PassiveDirective
  | ambientMint (liq : ℤ) (rollType : ℕ) : PassiveDirective
deriving DecidableEq

/-- Modelled from the spec: a pool leg of a long-form order directive — the
pool index it references, the swap-defer chaining flag, an optional swap
sub-directive and the passive sub-directives appended to it, in order. -/
structure PoolDirective where
  poolIdx : ℕ
  swapDefer : Bool
  swap : Option SwapDirective
  passive : List PassiveDirective
deriving DecidableEq

/-- Modelled from the spec: a settlement leg (token plus its limit
quantity). -/
structure SettlementDirective where
  token : ℕ
  limitQty : ℤ
deriving DecidableEq

/-- Modelled from the spec: a hop — a settlement leg followed by its pool
legs, in order. -/
structure HopDirective where
  settlement : SettlementDirective
  pools : List PoolDirective
deriving DecidableEq

/-- Modelled from the spec: a long-form order directive — the opening
settlement leg (`open` in the source, a reserved word here) and the ordered
hops. -/
structure OrderDirective where
  openLeg : SettlementDirective
  hops : List HopDirective
deriving DecidableEq

namespace CrocReposition

/-- `setupSwap` restricted to its produced value: the swap sub-directive
placed on the first pool leg (roll type 4, fraction as quantity, direction
from the out-of-range side, limit price `spot * (1 ± impact)` encoded). -/
def setupSwapVal (p : CrocReposition) (sellBase : Bool) (frac : ℤ) : SwapDirective :=
  { isBuy := sellBase
    inBaseQty := sellBase
    qty := frac
    rollType := 4
    limitPrice := encodeCrocPrice
      (p.spotPrice * (if sellBase then 1 + p.impact else 1 - p.impact)) }

/-- The mint sub-directive `formatDirective` appends to the second pool leg:
an ambient mint or a range mint with liquidity 0 and roll type 5. -/
def mintPassive (p : CrocReposition) : PassiveDirective :=
  match p.mintRange with
  | .ambient => .ambientMint 0 5
  | .range lo hi => .rangeMint lo hi 0 5

/-- `formatDirective`: resolves the pivot tokens, opens the directive on the
sell token with one hop to the buy token, appends a first pool leg carrying
the range burn and the deferred swap, then a second pool leg (same pool
index) carrying the mint, and zeroes both limit quantities. -/
def formatDirective (p : CrocReposition) : Except RepoError OrderDirective := do
  let pivot ← p.pivotTokens
  let frac ← p.swapFraction
  let sellBase ← p.isBaseOutOfRange
  .ok
    { openLeg := { token := pivot.1, limitQty := 0 }
      hops := [
        { settlement := { token := pivot.2, limitQty := 0 }
          pools := [
            { poolIdx := p.poolIndex
              swapDefer := true
              swap := some (p.setupSwapVal sellBase frac)
              passive := [.rangeBurn p.burnRange.1 p.burnRange.2 p.liquidity] },
            { poolIdx := p.poolIndex
              swapDefer := false
              swap := none
              passive := [p.mintPassive] } ] } ] }

end CrocReposition

/-- Whether a pool leg carries a range-burn sub-directive. -/
def legHasBurn (l : PoolDirective) : Bool :=
  l.passive.any fun pd =>
    match pd with
    | .rangeBurn _ _ _ => true
    | _ => false

/-- Whether a pool leg carries a mint (range or ambient) sub-directive. -/
def legHasMint (l : PoolDirective) : Bool :=
  l.passive.any fun pd =>
    match pd with
    | .rangeMint _ _ _ _ => true
    | .ambientMint _ _ => true
    | _ => false

/-- Whether a pool leg carries a swap sub-directive. -/
def legHasSwap (l : PoolDirective) : Bool :=
  l.swap.isSome

/-- All pool legs of a directive, in order across its hops. -/
def poolsOf (d : OrderDirective) : List PoolDirective :=
  (d.hops.map HopDirective.pools).flatten

/-- Index (among the directive's pool legs, in order) of the first leg
carrying a burn. -/
def burnLegIdx (d : OrderDirective) : ℕ :=
  (poolsOf d).findIdx legHasBurn

/-- Index of the first pool leg carrying a swap sub-directive. -/
def swapLegIdx (d : OrderDirective) : ℕ :=
  (poolsOf d).findIdx legHasSwap

/-- Index of the first pool leg carrying a mint sub-directive. -/
def mintLegIdx (d : OrderDirective) : ℕ :=
  (poolsOf d).findIdx legHasMint

/-- The pool indices referenced by the directive's pool legs, in order. -/
def poolIdxsOf (d : OrderDirective) : List ℕ :=
  (poolsOf d).map PoolDirective.poolIdx

/-- The settlement legs' limit quantities, in hop order. -/
def settleLimitQtys (d : OrderDirective) : List ℤ :=
  d.hops.map fun h => h.settlement.limitQty

/-- The limit prices of the swap sub-directives present in the directive's
pool legs, in order. -/
def swapLimitsOf (d : OrderDirective) : List ℤ :=
  (poolsOf d).filterMap fun l => l.swap.map SwapDirective.limitPrice


namespace CrocReposition

/-- The burn position has exited its range: the spot tick lies strictly below
the lower burn tick or at/above the upper burn tick. -/
def outOfRange (p : CrocReposition) : Prop :=
  p.spotTick < p.burnRange.1 ∨ p.burnRange.2 ≤ p.spotTick

instance (p : CrocReposition) : Decidable p.outOfRange :=
  decidable_of_iff (p.spotTick < p.burnRange.1 ∨ p.burnRange.2 ≤ p.spotTick) Iff.rfl

/-- The mint target is well formed: ambient, or a range with ordered ticks. -/
def validMint (p : CrocReposition) : Prop :=
  match p.mintRange with
  | .ambient => True
  | .range lo hi => lo < hi

instance (p : CrocReposition) : Decidable p.validMint := by
  unfold validMint
  cases p.mintRange with
  | ambient => exact inferInstance
  | range lo hi => exact inferInstance

/-- Pure value of `isBaseOutOfRange` (meaningful once the position is out of
range): whether the spot tick reached the upper burn tick. -/
def isBaseVal (p : CrocReposition) : Bool :=
  decide (p.burnRange.2 ≤ p.spotTick)

/-- Pure value of `balancePercent` for an out-of-range position. -/
def balancePercentVal (p : CrocReposition) : ℚ :=
  match p.mintRange with
  | .ambient => 1 / 2
  | .range lo hi =>
      let b := concDepositBalance p.spotPrice (tickToPrice lo) (tickToPrice hi)
      if p.isBaseVal then 1 - b else b

/-- Pure value of `swapFraction` for an out-of-range position. -/
def swapFracVal (p : CrocReposition) : ℤ :=
  ⌊min (p.balancePercentVal + p.impact) 1 * 10000⌋

/-- Pure value of `currentCollateral` for an out-of-range position. -/
def collatVal (p : CrocReposition) : ℤ :=
  if p.isBaseVal then
    baseTokenForConcLiq p.spotPrice p.liquidity
      (tickToPrice p.burnRange.1) (tickToPrice p.burnRange.2)
  else
    quoteTokenForConcLiq p.spotPrice p.liquidity
      (tickToPrice p.burnRange.1) (tickToPrice p.burnRange.2)

/-- Pure value of `convertCollateral` for an out-of-range position. -/
def convVal (p : CrocReposition) : ℤ :=
  bnDiv (p.collatVal * p.swapFracVal) 10000

/-- Pure value of `pivotTokens` for an out-of-range position: sell token then
buy token. -/
def pivotVal (p : CrocReposition) : ℕ × ℕ :=
  if p.isBaseVal then (p.baseToken, p.quoteToken) else (p.quoteToken, p.baseToken)

/-- Pure value of `formatDirective` for an out-of-range position. -/
def directiveVal (p : CrocReposition) : OrderDirective :=
  { openLeg := { token := p.pivotVal.1, limitQty := 0 }
    hops := [
      { settlement := { token := p.pivotVal.2, limitQty := 0 }
        pools := [
          { poolIdx := p.poolIndex
            swapDefer := true
            swap := some (p.setupSwapVal p.isBaseVal p.swapFracVal)
            passive := [.rangeBurn p.burnRange.1 p.burnRange.2 p.liquidity] },
          { poolIdx := p.poolIndex
            swapDefer := false
            swap := none
            passive := [p.mintPassive] } ] } ] }

end CrocReposition

/-- A planner whose burn range `[1, 2)` lies below the spot tick `3`: the base
side is out of range.  Mint target is ambient, liquidity `1000000`, spot price
`2`, impact `0.02`. -/
def pOut : CrocReposition :=
  { baseToken := 1, quoteToken := 2, baseDecimals := 18, quoteDecimals := 18
    poolIndex := 420, burnRange := (1, 2), mintRange := .ambient
    liquidity := 1000000, spotPrice := 2, spotTick := 3, impact := 1 / 50 }

/-- A planner whose burn range `[1, 2)` lies above the spot tick `0`: the
quote side is out of range. -/
def pBelow : CrocReposition :=
  { baseToken := 1, quoteToken := 2, baseDecimals := 18, quoteDecimals := 18
    poolIndex := 420, burnRange := (1, 2), mintRange := .ambient
    liquidity := 1000000, spotPrice := 1, spotTick := 0, impact := 1 / 50 }

/-- A planner whose spot tick `2` lies inside its burn range `[1, 3)`, with a
concrete-range mint target: repositioning is invalid. -/
def pInRange : CrocReposition :=
  { baseToken := 1, quoteToken := 2, baseDecimals := 18, quoteDecimals := 18
    poolIndex := 420, burnRange := (1, 3), mintRange := .range 5 6
    liquidity := 1000000, spotPrice := 1, spotTick := 2, impact := 1 / 50 }

/-- A planner whose spot tick `150` lies inside its burn range `[100, 200)`,
with the ambient mint target. -/
def pAmbIn : CrocReposition :=
  { baseToken := 1, quoteToken := 2, baseDecimals := 18, quoteDecimals := 18
    poolIndex := 420, burnRange := (100, 200), mintRange := .ambient
    liquidity := 1000000, spotPrice := 1, spotTick := 150, impact := 1 / 50 }

/-- The out-of-range planner `pOut` with a negative impact field. -/
def pNegImpact : CrocReposition :=
  { baseToken := 1, quoteToken := 2, baseDecimals := 18, quoteDecimals := 18
    poolIndex := 420, burnRange := (1, 2), mintRange := .ambient
    liquidity := 1000000, spotPrice := 2, spotTick := 3, impact := -1 }

/-- A concrete pool snapshot used to exercise the constructor. -/
def poolW : CrocPoolView :=
  { baseToken := 1, quoteToken := 2, baseDecimals := 18, quoteDecimals := 18
    poolIndex := 420, spotPrice := 2, spotTick := 3 }

/-- A concrete reposition target used to exercise the constructor. -/
def targetW : RepositionTarget :=
  { mint := .ambient, burn := (1, 2), liquidity := 1000000 }

namespace CrocReposition

theorem isBaseOutOfRange_eq_of_outOfRange {p : CrocReposition}
    (h : p.outOfRange) : p.isBaseOutOfRange = .ok p.isBaseVal := by
  by_cases hge : p.burnRange.2 ≤ p.spotTick
  · simp [isBaseOutOfRange, isBaseVal, hge]
  · rcases h with hlt | hge2
    · simp [isBaseOutOfRange, isBaseVal, hge, hlt]
    · exact absurd hge2 hge

theorem isBaseOutOfRange_err_of_inRange {p : CrocReposition}
    (h1 : p.burnRange.1 ≤ p.spotTick) (h2 : p.spotTick < p.burnRange.2) :
    p.isBaseOutOfRange = .error .positionNotOutOfRange := by
  simp [isBaseOutOfRange, not_le.mpr h2, not_lt.mpr h1]

theorem balancePercent_eq_of_outOfRange {p : CrocReposition}
    (h : p.outOfRange) : p.balancePercent = .ok p.balancePercentVal := by
  unfold balancePercent balancePercentVal
  cases hm : p.mintRange with
  | ambient => rfl
  | range lo hi =>
      rw [isBaseOutOfRange_eq_of_outOfRange h]
      rfl

theorem swapFraction_eq_of_outOfRange {p : CrocReposition}
    (h : p.outOfRange) : p.swapFraction = .ok p.swapFracVal := by
  unfold swapFraction swapFracVal
  rw [balancePercent_eq_of_outOfRange h]
  rfl

theorem currentCollateral_eq_of_outOfRange {p : CrocReposition}
    (h : p.outOfRange) : p.currentCollateral = .ok p.collatVal := by
  unfold currentCollateral collatVal
  rw [isBaseOutOfRange_eq_of_outOfRange h]
  cases hb : p.isBaseVal <;> rfl

theorem convertCollateral_eq_of_outOfRange {p : CrocReposition}
    (h : p.outOfRange) : p.convertCollateral = .ok p.convVal := by
  unfold convertCollateral convVal
  rw [swapFraction_eq_of_outOfRange h, currentCollateral_eq_of_outOfRange h]
  rfl

theorem mintInputRaw_eq_of_outOfRange {p : CrocReposition}
    (h : p.outOfRange) : p.mintInputRaw = .ok (p.collatVal - p.convVal) := by
  unfold mintInputRaw
  rw [currentCollateral_eq_of_outOfRange h, convertCollateral_eq_of_outOfRange h]
  rfl

end CrocReposition

theorem tickToPrice_lt_aux {t1 t2 : ℤ} (h : t1 < t2) :
    tickToPrice t1 < tickToPrice t2 := by
  unfold tickToPrice
  exact (zpow_lt_zpow_iff_right₀ (by norm_num)).mpr h

theorem tickToPrice_pos (t : ℤ) : 0 < tickToPrice t := by
  unfold tickToPrice
  exact zpow_pos (by norm_num) t

theorem concDepositBalance_nonneg {spot lower upper : ℚ} (_h : lower < upper) :
    0 ≤ concDepositBalance spot lower upper := by
  unfold concDepositBalance
  split_ifs with h1 h2
  · norm_num
  · norm_num
  · have hs := not_le.mp h2
    apply div_nonneg <;> linarith

theorem concDepositBalance_le_one {spot lower upper : ℚ} (_h : lower < upper) :
    concDepositBalance spot lower upper ≤ 1 := by
  unfold concDepositBalance
  split_ifs with h1 h2
  · norm_num
  · norm_num
  · have hs := not_le.mp h1
    rw [div_le_one (by linarith)]
    linarith

namespace CrocReposition

theorem balancePercentVal_nonneg {p : CrocReposition} (hv : p.validMint) :
    0 ≤ p.balancePercentVal := by
  unfold validMint at hv
  unfold balancePercentVal
  cases hm : p.mintRange with
  | ambient => norm_num
  | range lo hi =>
      rw [hm] at hv
      have hlt := tickToPrice_lt_aux hv
      have h1 : 0 ≤ concDepositBalance p.spotPrice (tickToPrice lo) (tickToPrice hi) :=
        concDepositBalance_nonneg hlt
      have h2 : concDepositBalance p.spotPrice (tickToPrice lo) (tickToPrice hi) ≤ 1 :=
        concDepositBalance_le_one hlt
      cases hb : p.isBaseVal <;> simp [hb] <;> linarith

theorem balancePercentVal_le_one {p : CrocReposition} (hv : p.validMint) :
    p.balancePercentVal ≤ 1 := by
  unfold validMint at hv
  unfold balancePercentVal
  cases hm : p.mintRange with
  | ambient => norm_num
  | range lo hi =>
      rw [hm] at hv
      have hlt := tickToPrice_lt_aux hv
      have h1 : 0 ≤ concDepositBalance p.spotPrice (tickToPrice lo) (tickToPrice hi) :=
        concDepositBalance_nonneg hlt
      have h2 : concDepositBalance p.spotPrice (tickToPrice lo) (tickToPrice hi) ≤ 1 :=
        concDepositBalance_le_one hlt
      cases hb : p.isBaseVal <;> simp [hb] <;> linarith

theorem swapFracVal_nonneg {p : CrocReposition} (h0 : 0 ≤ p.impact)
    (hv : p.validMint) : 0 ≤ p.swapFracVal := by
  unfold swapFracVal
  rw [Int.floor_nonneg]
  have hbp := balancePercentVal_nonneg hv
  have hmin : 0 ≤ min (p.balancePercentVal + p.impact) 1 :=
    le_min (by linarith) (by norm_num)
  exact mul_nonneg hmin (by norm_num)

theorem swapFracVal_le_10000 (p : CrocReposition) : p.swapFracVal ≤ 10000 := by
  unfold swapFracVal
  have hx : min (p.balancePercentVal + p.impact) 1 * 10000 ≤ (10000 : ℚ) := by
    have := min_le_right (p.balancePercentVal + p.impact) 1
    nlinarith
  calc ⌊min (p.balancePercentVal + p.impact) 1 * 10000⌋ ≤ ⌊(10000 : ℚ)⌋ :=
        Int.floor_le_floor hx
    _ = 10000 := by norm_num

theorem swapFracVal_eq_10000 {p : CrocReposition}
    (h : 1 ≤ p.balancePercentVal + p.impact) : p.swapFracVal = 10000 := by
  unfold swapFracVal
  rw [min_eq_right h]
  norm_num

theorem collatVal_nonneg {p : CrocReposition} (hliq : 0 ≤ p.liquidity)
    (hburn : p.burnRange.1 < p.burnRange.2) : 0 ≤ p.collatVal := by
  have hlt := tickToPrice_lt_aux hburn
  have hden : (0 : ℚ) ≤ tickToPrice p.burnRange.2 - tickToPrice p.burnRange.1 := by
    linarith
  have hcast : (0 : ℚ) ≤ (p.liquidity : ℚ) := Int.cast_nonneg.mpr hliq
  have hclamp1 : tickToPrice p.burnRange.1 ≤
      min (max p.spotPrice (tickToPrice p.burnRange.1)) (tickToPrice p.burnRange.2) :=
    le_min (le_max_right _ _) (le_of_lt hlt)
  have hclamp2 : min (max p.spotPrice (tickToPrice p.burnRange.1))
      (tickToPrice p.burnRange.2) ≤ tickToPrice p.burnRange.2 :=
    min_le_right _ _
  unfold collatVal baseTokenForConcLiq quoteTokenForConcLiq
  cases hb : p.isBaseVal
  · simp only [Bool.false_eq_true, if_false, Int.floor_nonneg]
    apply mul_nonneg hcast
    apply div_nonneg _ hden
    linarith
  · simp only [if_true, Int.floor_nonneg]
    apply mul_nonneg hcast
    apply div_nonneg _ hden
    linarith

theorem convVal_nonneg {p : CrocReposition} (h0 : 0 ≤ p.impact)
    (hv : p.validMint) (hliq : 0 ≤ p.liquidity)
    (hburn : p.burnRange.1 < p.burnRange.2) : 0 ≤ p.convVal := by
  unfold convVal bnDiv
  have hc := collatVal_nonneg hliq hburn
  have hf := swapFracVal_nonneg h0 hv
  rw [Int.tdiv_eq_ediv (mul_nonneg hc hf) (by norm_num)]
  exact Int.ediv_nonneg (mul_nonneg hc hf) (by norm_num)

theorem convVal_le_collatVal {p : CrocReposition} (h0 : 0 ≤ p.impact)
    (hv : p.validMint) (hliq : 0 ≤ p.liquidity)
    (hburn : p.burnRange.1 < p.burnRange.2) : p.convVal ≤ p.collatVal := by
  unfold convVal bnDiv
  have hc := collatVal_nonneg hliq hburn
  have hf := swapFracVal_nonneg h0 hv
  have hfle := swapFracVal_le_10000 p
  rw [Int.tdiv_eq_ediv (mul_nonneg hc hf) (by norm_num)]
  calc p.collatVal * p.swapFracVal / 10000 ≤ p.collatVal * 10000 / 10000 :=
        Int.ediv_le_ediv (by norm_num) (mul_le_mul_of_nonneg_left hfle hc)
    _ = p.collatVal := Int.mul_ediv_cancel _ (by norm_num)

end CrocReposition

namespace CrocReposition

theorem pivotTokens_eq_of_outOfRange {p : CrocReposition}
    (h : p.outOfRange) : p.pivotTokens = .ok p.pivotVal := by
  unfold pivotTokens pivotVal
  rw [isBaseOutOfRange_eq_of_outOfRange h]
  cases hb : p.isBaseVal <;> rfl

theorem formatDirective_eq_of_outOfRange {p : CrocReposition}
    (h : p.outOfRange) : p.formatDirective = .ok p.directiveVal := by
  unfold formatDirective directiveVal
  rw [pivotTokens_eq_of_outOfRange h, swapFraction_eq_of_outOfRange h,
    isBaseOutOfRange_eq_of_outOfRange h]
  rfl

theorem currentCollateral_err_of_inRange {p : CrocReposition}
    (h1 : p.burnRange.1 ≤ p.spotTick) (h2 : p.spotTick < p.burnRange.2) :
    p.currentCollateral = .error .positionNotOutOfRange := by
  unfold currentCollateral
  rw [isBaseOutOfRange_err_of_inRange h1 h2]
  rfl

theorem convertCollateral_err_of_inRange {p : CrocReposition}
    (h1 : p.burnRange.1 ≤ p.spotTick) (h2 : p.spotTick < p.burnRange.2) :
    p.convertCollateral = .error .positionNotOutOfRange := by
  have hcc := currentCollateral_err_of_inRange h1 h2
  cases hm : p.mintRange with
  | ambient =>
      have hsf : p.swapFraction = .ok ⌊min (1 / 2 + p.impact) 1 * 10000⌋ := by
        unfold swapFraction balancePercent
        rw [hm]
        rfl
      unfold convertCollateral
      rw [hsf, hcc]
      rfl
  | range lo hi =>
      have hsf : p.swapFraction = .error .positionNotOutOfRange := by
        unfold swapFraction balancePercent
        rw [hm, isBaseOutOfRange_err_of_inRange h1 h2]
        rfl
      unfold convertCollateral
      rw [hsf]
      rfl

theorem mintInputRaw_err_of_inRange {p : CrocReposition}
    (h1 : p.burnRange.1 ≤ p.spotTick) (h2 : p.spotTick < p.burnRange.2) :
    p.mintInputRaw = .error .positionNotOutOfRange := by
  unfold mintInputRaw
  rw [currentCollateral_err_of_inRange h1 h2]
  rfl

theorem mintInput_err_of_inRange {p : CrocReposition}
    (h1 : p.burnRange.1 ≤ p.spotTick) (h2 : p.spotTick < p.burnRange.2) :
    p.mintInput = .error .positionNotOutOfRange := by
  unfold mintInput
  rw [mintInputRaw_err_of_inRange h1 h2]
  rfl

theorem pivotTokens_err_of_inRange {p : CrocReposition}
    (h1 : p.burnRange.1 ≤ p.spotTick) (h2 : p.spotTick < p.burnRange.2) :
    p.pivotTokens = .error .positionNotOutOfRange := by
  unfold pivotTokens
  rw [isBaseOutOfRange_err_of_inRange h1 h2]
  rfl

theorem swapOutput_err_of_inRange {p : CrocReposition} (calcImpact : ℤ → ℚ)
    (h1 : p.burnRange.1 ≤ p.spotTick) (h2 : p.spotTick < p.burnRange.2) :
    swapOutput calcImpact p = .error .positionNotOutOfRange := by
  unfold swapOutput
  rw [pivotTokens_err_of_inRange h1 h2]
  rfl

theorem postBalance_err_of_inRange {p : CrocReposition} (calcImpact : ℤ → ℚ)
    (h1 : p.burnRange.1 ≤ p.spotTick) (h2 : p.spotTick < p.burnRange.2) :
    postBalance calcImpact p = .error .positionNotOutOfRange := by
  unfold postBalance
  rw [mintInput_err_of_inRange h1 h2]
  rfl

theorem formatDirective_err_of_inRange {p : CrocReposition}
    (h1 : p.burnRange.1 ≤ p.spotTick) (h2 : p.spotTick < p.burnRange.2) :
    p.formatDirective = .error .positionNotOutOfRange := by
  unfold formatDirective
  rw [pivotTokens_err_of_inRange h1 h2]
  rfl

end CrocReposition

/-- C1 (amended): for a planner whose spot tick lies inside the burn range,
`currentCollateral`, `convertCollateral`, `mintInput`, `swapOutput`,
`postBalance` and directive building all fail with the not-out-of-range
error; `balancePercent` also fails when the mint target is a concrete range,
but for an ambient mint target it returns `0.5` instead of failing. -/
theorem claim1_inRange_methods_fail (p : CrocReposition) (calcImpact : ℤ → ℚ)
    (h1 : p.burnRange.1 ≤ p.spotTick) (h2 : p.spotTick < p.burnRange.2) :
    p.currentCollateral = .error .positionNotOutOfRange ∧
    p.convertCollateral = .error .positionNotOutOfRange ∧
    p.mintInput = .error .positionNotOutOfRange ∧
    CrocReposition.swapOutput calcImpact p = .error .positionNotOutOfRange ∧
    CrocReposition.postBalance calcImpact p = .error .positionNotOutOfRange ∧
    p.formatDirective = .error .positionNotOutOfRange ∧
    (p.mintRange ≠ .ambient → p.balancePercent = .error .positionNotOutOfRange) ∧
    (p.mintRange = .ambient → p.balancePercent = .ok (1 / 2)) := by
  refine ⟨CrocReposition.currentCollateral_err_of_inRange h1 h2,
    CrocReposition.convertCollateral_err_of_inRange h1 h2,
    CrocReposition.mintInput_err_of_inRange h1 h2,
    CrocReposition.swapOutput_err_of_inRange calcImpact h1 h2,
    CrocReposition.postBalance_err_of_inRange calcImpact h1 h2,
    CrocReposition.formatDirective_err_of_inRange h1 h2, ?_, ?_⟩
  · intro hne
    cases hm : p.mintRange with
    | ambient => exact absurd hm hne
    | range lo hi =>
        unfold CrocReposition.balancePercent
        rw [hm, CrocReposition.isBaseOutOfRange_err_of_inRange h1 h2]
        rfl
  · intro hm
    unfold CrocReposition.balancePercent
    rw [hm]

/-- C1 counterexample: the in-range planner `pAmbIn` with the ambient mint
target has its spot tick inside the burn range, yet the public method
`balancePercent` succeeds with `0.5` instead of failing. -/
theorem claim1_counterexample :
    pAmbIn.burnRange.1 ≤ pAmbIn.spotTick ∧ pAmbIn.spotTick < pAmbIn.burnRange.2 ∧
    pAmbIn.mintRange = .ambient ∧ pAmbIn.balancePercent = .ok (1 / 2) :=
  ⟨by decide, by decide, rfl, rfl⟩

/-- C1 witness: the amended theorem evaluated on the in-range planner
`pInRange` whose mint target is a concrete range. -/
theorem claim1_witness :
    pInRange.currentCollateral = .error .positionNotOutOfRange ∧
    pInRange.convertCollateral = .error .positionNotOutOfRange ∧
    pInRange.mintInput = .error .positionNotOutOfRange ∧
    CrocReposition.swapOutput (fun z => (z : ℚ)) pInRange = .error .positionNotOutOfRange ∧
    CrocReposition.postBalance (fun z => (z : ℚ)) pInRange = .error .positionNotOutOfRange ∧
    pInRange.formatDirective = .error .positionNotOutOfRange ∧
    (pInRange.mintRange ≠ .ambient →
      pInRange.balancePercent = .error .positionNotOutOfRange) ∧
    (pInRange.mintRange = .ambient → pInRange.balancePercent = .ok (1 / 2)) :=
  claim1_inRange_methods_fail pInRange (fun z => (z : ℚ)) (by decide) (by decide)

/-- C2: for every out-of-range position and any impact in `[0,1]`, the sum of
`convertCollateral` and the pre-display remainder computed by `mintInput`
equals `currentCollateral` exactly, in smallest-unit integers. -/
theorem claim2_convert_plus_mint_eq_collateral (p : CrocReposition)
    (_h0 : 0 ≤ p.impact) (_h1 : p.impact ≤ 1) (hout : p.outOfRange) :
    (do
      let c ← p.convertCollateral
      let m ← p.mintInputRaw
      pure (c + m) : Except RepoError ℤ) = p.currentCollateral := by
  rw [CrocReposition.convertCollateral_eq_of_outOfRange hout,
    CrocReposition.mintInputRaw_eq_of_outOfRange hout,
    CrocReposition.currentCollateral_eq_of_outOfRange hout]
  show Except.ok (p.convVal + (p.collatVal - p.convVal)) = Except.ok p.collatVal
  congr 1
  ring

/-- C2 witness: the identity evaluated on the out-of-range planner `pOut`
with impact `0.02`. -/
theorem claim2_witness :
    0 ≤ pOut.impact ∧ pOut.impact ≤ 1 ∧ pOut.outOfRange ∧
    (do
      let c ← pOut.convertCollateral
      let m ← pOut.mintInputRaw
      pure (c + m) : Except RepoError ℤ) = pOut.currentCollateral :=
  ⟨by norm_num [pOut], by norm_num [pOut], by decide,
    claim2_convert_plus_mint_eq_collateral pOut (by norm_num [pOut])
      (by norm_num [pOut]) (by decide)⟩

/-- C3 (amended): for every out-of-range position with a well-formed mint
target and a non-negative impact, `swapFraction` is the integer
`⌊min(balancePercent() + impact, 1.0) * 10000⌋`, lies in `[0, 10000]`, and
equals exactly `10000` whenever `balancePercent() + impact ≥ 1.0`. -/
theorem claim3_swapFraction_bounds (p : CrocReposition) (h0 : 0 ≤ p.impact)
    (hout : p.outOfRange) (hv : p.validMint) :
    p.balancePercent = .ok p.balancePercentVal ∧
    p.swapFraction = .ok p.swapFracVal ∧
    p.swapFracVal = ⌊min (p.balancePercentVal + p.impact) 1 * 10000⌋ ∧
    0 ≤ p.swapFracVal ∧ p.swapFracVal ≤ 10000 ∧
    (1 ≤ p.balancePercentVal + p.impact → p.swapFracVal = 10000) :=
  ⟨CrocReposition.balancePercent_eq_of_outOfRange hout,
    CrocReposition.swapFraction_eq_of_outOfRange hout, rfl,
    CrocReposition.swapFracVal_nonneg h0 hv, CrocReposition.swapFracVal_le_10000 p,
    fun h => CrocReposition.swapFracVal_eq_10000 h⟩

/-- C3 counterexample: the out-of-range planner `pNegImpact` carries the
impact `-1` (expressible through the constructor, whose only falsy value is
`0`), and its `swapFraction` is `-5000`, outside `[0, 10000]`. -/
theorem claim3_counterexample :
    pNegImpact.outOfRange ∧ pNegImpact.swapFraction = .ok (-5000) ∧
    (-5000 : ℤ) < 0 := by
  refine ⟨by decide, ?_, by decide⟩
  rw [CrocReposition.swapFraction_eq_of_outOfRange (by decide)]
  norm_num [CrocReposition.swapFracVal, CrocReposition.balancePercentVal,
    pNegImpact, min_def]

/-- C3 witness: the amended theorem evaluated on the out-of-range planner
`pOut` with impact `0.02`. -/
theorem claim3_witness :
    pOut.balancePercent = .ok pOut.balancePercentVal ∧
    pOut.swapFraction = .ok pOut.swapFracVal ∧
    pOut.swapFracVal = ⌊min (pOut.balancePercentVal + pOut.impact) 1 * 10000⌋ ∧
    0 ≤ pOut.swapFracVal ∧ pOut.swapFracVal ≤ 10000 ∧
    (1 ≤ pOut.balancePercentVal + pOut.impact → pOut.swapFracVal = 10000) :=
  claim3_swapFraction_bounds pOut (by norm_num [pOut]) (by decide) (by decide)

/-- C4: for every planner with an ordered burn range, `isBaseOutOfRange`
returns `true` exactly when the spot tick is at/above the upper tick, `false`
exactly when it is strictly below the lower tick, and the not-out-of-range
error exactly when it lies inside the range: the three cases are exhaustive
and mutually exclusive. -/
theorem claim4_isBaseOutOfRange_trichotomy (p : CrocReposition)
    (hr : p.burnRange.1 < p.burnRange.2) :
    (p.isBaseOutOfRange = .ok true ↔ p.burnRange.2 ≤ p.spotTick) ∧
    (p.isBaseOutOfRange = .ok false ↔ p.spotTick < p.burnRange.1) ∧
    (p.isBaseOutOfRange = .error .positionNotOutOfRange ↔
      (p.burnRange.1 ≤ p.spotTick ∧ p.spotTick < p.burnRange.2)) := by
  unfold CrocReposition.isBaseOutOfRange
  split_ifs with ha hb
  · refine ⟨?_, ?_, ?_⟩ <;> simp <;> omega
  · refine ⟨?_, ?_, ?_⟩ <;> simp <;> omega
  · refine ⟨?_, ?_, ?_⟩ <;> simp <;> omega

/-- C4 witness: the trichotomy evaluated on the planner `pOut`. -/
theorem claim4_witness :
    (pOut.isBaseOutOfRange = .ok true ↔ pOut.burnRange.2 ≤ pOut.spotTick) ∧
    (pOut.isBaseOutOfRange = .ok false ↔ pOut.spotTick < pOut.burnRange.1) ∧
    (pOut.isBaseOutOfRange = .error .positionNotOutOfRange ↔
      (pOut.burnRange.1 ≤ pOut.spotTick ∧ pOut.spotTick < pOut.burnRange.2)) :=
  claim4_isBaseOutOfRange_trichotomy pOut (by decide)

/-- C5 (amended): for every out-of-range planner, the constructed directive
puts the range burn and the swap sub-directive together on the first pool
leg, the mint on the second pool leg, both legs referencing the planner's
pool index, with `open.limitQty = 0` and the settlement leg's
`limitQty = 0`. -/
theorem claim5_directive_ordering (p : CrocReposition) (hout : p.outOfRange) :
    Except.map (fun d => (burnLegIdx d, swapLegIdx d, mintLegIdx d, poolIdxsOf d,
      d.openLeg.limitQty, settleLimitQtys d)) p.formatDirective =
      .ok (0, 0, 1, [p.poolIndex, p.poolIndex], 0, [0]) := by
  rw [CrocReposition.formatDirective_eq_of_outOfRange hout]
  cases hm : p.mintRange with
  | ambient =>
      simp [CrocReposition.directiveVal, burnLegIdx, swapLegIdx, mintLegIdx,
        poolsOf, poolIdxsOf, settleLimitQtys, legHasBurn, legHasMint, legHasSwap,
        CrocReposition.mintPassive, hm, List.findIdx_cons, Except.map]
  | range lo hi =>
      simp [CrocReposition.directiveVal, burnLegIdx, swapLegIdx, mintLegIdx,
        poolsOf, poolIdxsOf, settleLimitQtys, legHasBurn, legHasMint, legHasSwap,
        CrocReposition.mintPassive, hm, List.findIdx_cons, Except.map]

/-- C5 counterexample: on the out-of-range planner `pOut`, the pool-leg index
carrying the burn does not strictly precede the pool-leg index carrying the
swap — they are the same leg. -/
theorem claim5_counterexample :
    pOut.outOfRange ∧
    Except.map (fun d => decide (burnLegIdx d < swapLegIdx d)) pOut.formatDirective =
      .ok false := by
  refine ⟨by decide, ?_⟩
  rw [CrocReposition.formatDirective_eq_of_outOfRange (by decide)]
  simp [CrocReposition.directiveVal, burnLegIdx, swapLegIdx, poolsOf,
    legHasBurn, legHasSwap, List.findIdx_cons, Except.map, pOut]

/-- C5 witness: the amended ordering invariant evaluated on the out-of-range
planner `pBelow`. -/
theorem claim5_witness :
    Except.map (fun d => (burnLegIdx d, swapLegIdx d, mintLegIdx d, poolIdxsOf d,
      d.openLeg.limitQty, settleLimitQtys d)) pBelow.formatDirective =
      .ok (0, 0, 1, [pBelow.poolIndex, pBelow.poolIndex], 0, [0]) :=
  claim5_directive_ordering pBelow (by decide)

/-- C6: for every planner whose mint target is the ambient sentinel,
`balancePercent` returns exactly `0.5`, whatever the spot price, spot tick
and liquidity. -/
theorem claim6_ambient_balancePercent (p : CrocReposition)
    (h : p.mintRange = .ambient) : p.balancePercent = .ok (1 / 2) := by
  unfold CrocReposition.balancePercent
  rw [h]

/-- C6 witness: `balancePercent` evaluated on the ambient-target planner
`pOut`. -/
theorem claim6_witness :
    pOut.mintRange = .ambient ∧ pOut.balancePercent = .ok (1 / 2) :=
  ⟨rfl, claim6_ambient_balancePercent pOut rfl⟩

/-- C7: for every out-of-range planner, the only swap sub-directive of the
constructed directive carries the limit price `spot * (1 + impact)` when the
base asset is sold (base out of range) and `spot * (1 - impact)` when it is
bought, encoded into the pool's native price representation. -/
theorem claim7_swap_limit_price (p : CrocReposition) (hout : p.outOfRange) :
    Except.map swapLimitsOf p.formatDirective =
      .ok [encodeCrocPrice (p.spotPrice *
        (if p.burnRange.2 ≤ p.spotTick then 1 + p.impact else 1 - p.impact))] := by
  rw [CrocReposition.formatDirective_eq_of_outOfRange hout]
  by_cases h : p.burnRange.2 ≤ p.spotTick <;>
    simp [CrocReposition.directiveVal, swapLimitsOf, poolsOf,
      CrocReposition.setupSwapVal, CrocReposition.isBaseVal, h, Except.map]

/-- C7 witness: the swap limit price evaluated on the out-of-range planner
`pOut` (base side out of range). -/
theorem claim7_witness :
    Except.map swapLimitsOf pOut.formatDirective =
      .ok [encodeCrocPrice (pOut.spotPrice *
        (if pOut.burnRange.2 ≤ pOut.spotTick then 1 + pOut.impact
         else 1 - pOut.impact))] :=
  claim7_swap_limit_price pOut (by decide)

/-- C8: the tick-to-price conversion is strictly increasing over all integer
ticks. -/
theorem claim8_tickToPrice_strictMono (t1 t2 : ℤ) (h : t1 < t2) :
    tickToPrice t1 < tickToPrice t2 :=
  tickToPrice_lt_aux h

/-- C8 witness: strict monotonicity evaluated at ticks `0 < 1`. -/
theorem claim8_witness : (0 : ℤ) < 1 ∧ tickToPrice 0 < tickToPrice 1 :=
  ⟨by decide, claim8_tickToPrice_strictMono 0 1 (by decide)⟩

/-- C9: constructing a planner with the impact option `0` yields exactly the
planner constructed with no impact option at all — the default `0.02` — and
no option value can produce a planner whose impact is `0`. -/
theorem claim9_zero_impact_defaults (pool : CrocPoolView)
    (target : RepositionTarget) :
    mkCrocReposition pool target (some 0) = mkCrocReposition pool target none ∧
    (mkCrocReposition pool target (some 0)).impact = DEFAULT_REBAL_SLIPPAGE ∧
    (∀ optsImpact : Option ℚ, (mkCrocReposition pool target optsImpact).impact ≠ 0) := by
  refine ⟨by simp [mkCrocReposition, jsImpactOr], by simp [mkCrocReposition, jsImpactOr], ?_⟩
  intro optsImpact
  cases optsImpact with
  | none => norm_num [mkCrocReposition, jsImpactOr, DEFAULT_REBAL_SLIPPAGE]
  | some v =>
      by_cases hv : v = 0
      · norm_num [mkCrocReposition, jsImpactOr, hv, DEFAULT_REBAL_SLIPPAGE]
      · simp [mkCrocReposition, jsImpactOr, hv]

/-- C9 witness: the constructor evaluated on the concrete pool/target pair
`poolW`/`targetW`, with the option values `0` and `1/3`. -/
theorem claim9_witness :
    mkCrocReposition poolW targetW (some 0) = mkCrocReposition poolW targetW none ∧
    (mkCrocReposition poolW targetW (some 0)).impact = DEFAULT_REBAL_SLIPPAGE ∧
    (mkCrocReposition poolW targetW (some (1 / 3))).impact ≠ 0 := by
  obtain ⟨a, b, c⟩ := claim9_zero_impact_defaults poolW targetW
  exact ⟨a, b, c (some (1 / 3))⟩

/-- C10: for every out-of-range position with a well-formed mint target,
non-negative liquidity, an ordered burn range and an impact in `[0,1]`,
`convertCollateral` never exceeds `currentCollateral`, so the un-swapped
remainder that `mintInput` computes is non-negative. -/
theorem claim10_remainder_nonneg (p : CrocReposition) (h0 : 0 ≤ p.impact)
    (_h1 : p.impact ≤ 1) (hout : p.outOfRange) (hv : p.validMint)
    (hliq : 0 ≤ p.liquidity) (hburn : p.burnRange.1 < p.burnRange.2) :
    p.convertCollateral = .ok p.convVal ∧
    p.currentCollateral = .ok p.collatVal ∧
    p.convVal ≤ p.collatVal ∧
    p.mintInputRaw = .ok (p.collatVal - p.convVal) ∧
    0 ≤ p.collatVal - p.convVal := by
  have hle := CrocReposition.convVal_le_collatVal h0 hv hliq hburn
  exact ⟨CrocReposition.convertCollateral_eq_of_outOfRange hout,
    CrocReposition.currentCollateral_eq_of_outOfRange hout, hle,
    CrocReposition.mintInputRaw_eq_of_outOfRange hout, sub_nonneg.mpr hle⟩

/-- C10 witness: the invariant evaluated on the out-of-range planner
`pOut`. -/
theorem claim10_witness :
    pOut.convertCollateral = .ok pOut.convVal ∧
    pOut.currentCollateral = .ok pOut.collatVal ∧
    pOut.convVal ≤ pOut.collatVal ∧
    pOut.mintInputRaw = .ok (pOut.collatVal - pOut.convVal) ∧
    0 ≤ pOut.collatVal - pOut.convVal :=
  claim10_remainder_nonneg pOut (by norm_num [pOut]) (by norm_num [pOut])
    (by decide) (by decide) (by decide) (by decide)
